import Mathlib

/-!
Shallow embedding of the subtitle core of the youtube-language-reactor
browser extension, together with proofs of the specified properties.

Sources embedded here:
  * `src/extension/src/content/SubtitleExtractor.ts` — caption locator,
    timed-text parser, word splitter, active-segment resolution;
  * `src/extension/src/content/SubtitleOverlay.tsx` — overlay manager and
    the animation-frame time-sync tick;
  * the content-script entry point (`YouTubeLanguageReactor`) — SPA
    navigation watcher and session lifecycle;
  * `src/extension/src/utils/storage.ts` — vocabulary upsert;
  * `src/extension/src/background/service-worker.ts` and the API client —
    translation request normalization.

Conventions of the embedding: JavaScript numbers appearing as subtitle
times are modelled as `ℚ`; JavaScript strings whose character positions
matter (word offsets) are modelled as `List Char`, with offsets as list
indices; browser primitives (DOM parsing, `parseFloat` of an attribute,
HTML-entity decoding, network fetches) are modelled by passing their
outcomes in as explicit data, never by re-implementing the primitive.
-/

namespace YLR

/-- Whitespace test, modelling the `\s` character class used by the
source's `/\S+/g` word-splitting regex (restricted to the standard
whitespace characters). -/
def isWs (c : Char) : Bool := c.isWhitespace

/-- One token within a subtitle segment, from `types.ts` `SubtitleWord`:
`id`, `text`, and start/end character offsets into the segment text. -/
structure SubtitleWord where
  id : String
  text : List Char
  startIndex : Nat
  endIndex : Nat
deriving Repr, DecidableEq

/-- One timed subtitle line, from `types.ts` `SubtitleSegment`. -/
structure SubtitleSegment where
  id : String
  startTime : ℚ
  endTime : ℚ
  text : List Char
  words : List SubtitleWord
deriving Repr, DecidableEq

/-- The match list of the source's `/\S+/g` regex loop in
`SubtitleExtractor.splitIntoWords`: scanning `l` starting at character
position `pos`, produce every maximal run of non-whitespace characters
together with its starting offset.  Each entry `(i, tok)` corresponds to
one regex match: `i` is `match.index` and `tok` is `match[0]`. -/
def splitTokens (pos : Nat) (l : List Char) : List (Nat × List Char) :=
  match l with
  | [] => []
  | c :: rest =>
    if isWs c then
      splitTokens (pos + 1) rest
    else
      (pos, (c :: rest).takeWhile (fun x => !isWs x)) ::
        splitTokens (pos + ((c :: rest).takeWhile (fun x => !isWs x)).length)
          ((c :: rest).dropWhile (fun x => !isWs x))
termination_by l.length
decreasing_by
  · simp only [List.length_cons]; omega
  · have hc : (!isWs c) = true := by simp_all
    rw [List.dropWhile_cons, if_pos hc]
    have := (List.dropWhile_sublist (l := rest) (fun x => !isWs x)).length_le
    simp only [List.length_cons]
    omega

/-- Builds the `SubtitleWord` the source pushes for the `wordIndex`-th
regex match `m`: id `` `${segmentId}-word-${wordIndex}` ``, text
`match[0]`, offsets `match.index` and `match.index + match[0].length`. -/
def wordOfToken (segmentId : String) (wordIndex : Nat) (m : Nat × List Char) :
    SubtitleWord :=
  { id := segmentId ++ "-word-" ++ toString wordIndex
    text := m.2
    startIndex := m.1
    endIndex := m.1 + m.2.length }

/-- `SubtitleExtractor.splitIntoWords`: tokenize the decoded text on runs
of non-whitespace, recording literal character offsets. -/
def splitIntoWords (text : List Char) (segmentId : String) : List SubtitleWord :=
  (splitTokens 0 text).mapIdx (wordOfToken segmentId)

/-- The substring of `text` selected by a word's offsets
(`text.substring(w.startIndex, w.endIndex)` in the source's terms). -/
def wordSubstring (text : List Char) (w : SubtitleWord) : List Char :=
  (text.drop w.startIndex).take (w.endIndex - w.startIndex)

/-- One `<text>` node of YouTube's timed-text XML as delivered by the
browser's `DOMParser` + `querySelectorAll('text')`: the values
`parseFloat(getAttribute('start'))` / `parseFloat(getAttribute('dur'))`
when the attribute is present (`none` models an absent attribute, for
which the source substitutes `'0'`), and the node's raw `textContent`. -/
structure XmlTextNode where
  start? : Option ℚ
  dur? : Option ℚ
  body : List Char
deriving Repr, DecidableEq

/-- The segment id string `` `segment-${index}` ``. -/
def segIdString (index : Nat) : String := "segment-" ++ toString index

/-- `SubtitleExtractor.parseXml`, parametrized by the already-extracted
`<text>` node list and by the browser's HTML-entity decoder
(`decodeHtmlEntities`, a DOM primitive, passed in as `decode`).  Each
node becomes one segment: `start` attribute (default 0) → `startTime`,
`start + dur` → `endTime`, decoded body → `text` and `words`. -/
def parseXml (decode : List Char → List Char) (nodes : List XmlTextNode) :
    List SubtitleSegment :=
  nodes.mapIdx (fun index el =>
    { id := segIdString index
      startTime := el.start?.getD 0
      endTime := el.start?.getD 0 + el.dur?.getD 0
      text := decode el.body
      words := splitIntoWords (decode el.body) (segIdString index) })

/-- The predicate of `SubtitleExtractor.getCurrentSegment` (and of the
`SubtitleOverlay` component's segment lookup):
`currentTime >= segment.startTime && currentTime < segment.endTime`. -/
def segActive (currentTime : ℚ) (segment : SubtitleSegment) : Bool :=
  decide (currentTime ≥ segment.startTime) && decide (currentTime < segment.endTime)

/-- `SubtitleExtractor.getCurrentSegment`: first segment of the stored
sequence whose time window contains `currentTime`; `none` otherwise
(the source's `find(...) || null`). -/
def getCurrentSegment (subtitles : List SubtitleSegment) (currentTime : ℚ) :
    Option SubtitleSegment :=
  subtitles.find? (segActive currentTime)

/-- A caption track advertised by the player response (`baseUrl` and
`languageCode` are the fields the extractor reads). -/
structure CaptionTrack where
  baseUrl : String
  languageCode : String
deriving Repr, DecidableEq

/-- The `playerCaptionsTracklistRenderer` object; `captionTracks?` is its
optional `captionTracks` array. -/
structure TracklistRenderer where
  captionTracks? : Option (List CaptionTrack)
deriving Repr, DecidableEq

/-- The `captions` object of a player response; an empty JSON object is
modelled as `⟨none⟩` (truthy in the source, but with no renderer). -/
structure CaptionsObject where
  playerCaptionsTracklistRenderer? : Option TracklistRenderer
deriving Repr, DecidableEq

/-- A YouTube player response, reduced to the `captions` path the
extractor dereferences. `captions?` is `some` exactly when the JSON value
has a (truthy) `captions` field. -/
structure PlayerResponse where
  captions? : Option CaptionsObject
deriving Repr, DecidableEq

/-- `SubtitleExtractor.getCaptionTracks`: the optional-chaining
dereference `captions?.playerCaptionsTracklistRenderer?.captionTracks`.
An empty array is truthy in the source, so `some []` is preserved (the
trailing `|| null` only converts `undefined` to `null`). -/
def getCaptionTracks (r : PlayerResponse) : Option (List CaptionTrack) :=
  (r.captions?.bind fun c => c.playerCaptionsTracklistRenderer?).bind
    fun tl => tl.captionTracks?

/-- `SubtitleExtractor.hasCaptions`:
`!!response?.captions?.playerCaptionsTracklistRenderer?.captionTracks?.length` —
true exactly when the dereference chain succeeds and the array is
non-empty (`length` zero is falsy). -/
def hasCaptions (r : PlayerResponse) : Bool :=
  match getCaptionTracks r with
  | some ts => !ts.isEmpty
  | none => false

/-- The in-page inputs of `SubtitleExtractor.getPlayerResponse`, with each
browser primitive's outcome passed in as data:
* `winResponse?` — `window.ytInitialPlayerResponse` (method 1);
* `scriptParses` — one entry per inline script whose content mentions
  `ytInitialPlayerResponse`, holding the regex-match + `JSON.parse`
  outcome for that script (`none` models no regex match or a parse
  error, both of which make the source `continue`);
* `ytplayerConfigResponse?` — `ytplayer.config.args.raw_player_response`
  (method 3). -/
structure PageEnv where
  winResponse? : Option PlayerResponse
  scriptParses : List (Option PlayerResponse)
  ytplayerConfigResponse? : Option PlayerResponse

/-- `SubtitleExtractor.getPlayerResponse`: method 1 returns the window
global whenever it is present; method 2 scans the scripts in order and
accepts the first parsed JSON whose `captions` field is truthy; method 3
returns the legacy config response whenever it is present. -/
def getPlayerResponse (page : PageEnv) : Option PlayerResponse :=
  match page.winResponse? with
  | some r => some r
  | none =>
    match (page.scriptParses.filterMap id).find? (fun r => r.captions?.isSome) with
    | some r => some r
    | none => page.ytplayerConfigResponse?

/-- The full environment of one `extractSubtitles` run:
* `videoId?` — the `?v=` URL parameter;
* `page` — the in-page strategy inputs;
* `fetchedParse?` — the regex-match + `JSON.parse` outcome against the
  background-fetched watch-page HTML (`none` models a failed fetch, no
  regex match, or a parse error);
* `subtitleFetch` — outcome of fetching a caption file by `baseUrl` and
  running `DOMParser` + `querySelectorAll('text')` on its body (`none`
  models a rejected fetch or non-ok status, which the source throws on);
* `decode` — the browser's HTML-entity decoder. -/
structure ExtractEnv where
  videoId? : Option String
  page : PageEnv
  fetchedParse? : Option PlayerResponse
  subtitleFetch : String → Option (List XmlTextNode)
  decode : List Char → List Char

/-- `SubtitleExtractor.fetchPlayerResponseFallback`: accepts the fetched
page's parsed player response only if `hasCaptions` holds; every failure
is caught and becomes `none`. -/
def fetchPlayerResponseFallback (env : ExtractEnv) : Option PlayerResponse :=
  match env.fetchedParse? with
  | some r => if hasCaptions r then some r else none
  | none => none

/-- The `playerResponse` value after the fallback step of
`extractSubtitles`: the in-page result is kept only when it exists and
`hasCaptions` holds; otherwise it is replaced wholesale by the
background-fetch fallback. -/
def resolvePlayerResponse (env : ExtractEnv) : Option PlayerResponse :=
  match getPlayerResponse env.page with
  | some r => if hasCaptions r then some r else fetchPlayerResponseFallback env
  | none => fetchPlayerResponseFallback env

/-- Track selection in `extractSubtitles`: with a requested language,
the first track of that language, else the first track; with no request,
the first track (`t0` is `captionTracks[0]`). -/
def selectTrack (language? : Option String) (t0 : CaptionTrack)
    (tracks : List CaptionTrack) : CaptionTrack :=
  match language? with
  | some lang => (tracks.find? (fun t => t.languageCode == lang)).getD t0
  | none => t0

/-- The body of `SubtitleExtractor.extractSubtitles` with each `throw`
made explicit as an `Except.error` (the strings are the source's error
messages). -/
def extractSubtitlesE (env : ExtractEnv) (language? : Option String) :
    Except String (List SubtitleSegment) :=
  match env.videoId? with
  | none => .error "No video ID found"
  | some _vid =>
    match resolvePlayerResponse env with
    | none => .error "Could not find player response"
    | some pr =>
      match getCaptionTracks pr with
      | none => .error "No caption tracks available"
      | some [] => .error "No caption tracks available"
      | some (t0 :: ts) =>
        let track := selectTrack language? t0 (t0 :: ts)
        match env.subtitleFetch track.baseUrl with
        | none => .error "Failed to fetch subtitles"
        | some nodes => .ok (parseXml env.decode nodes)

/-- `SubtitleExtractor.extractSubtitles`: the surrounding `try`/`catch`
converts every thrown error into the empty segment list. -/
def extractSubtitles (env : ExtractEnv) (language? : Option String) :
    List SubtitleSegment :=
  match extractSubtitlesE env language? with
  | .ok segments => segments
  | .error _ => []

/-- A translation result, from `types.ts` `TranslationResponse`. -/
structure TranslationResponse where
  word : String
  translation : String
  language : String
  pronunciation? : Option String
  partOfSpeech? : Option String
  definitions? : Option (List String)
deriving Repr, DecidableEq

/-- The mutable fields of `SubtitleOverlayManager` (the React root and
DOM container are abstracted to `hasContainer`; the pending
`requestAnimationFrame` callback to `syncActive`). -/
structure OverlayManagerState where
  hasContainer : Bool
  segments : List SubtitleSegment
  currentTime : ℚ
  translation? : Option TranslationResponse
  hoveredWord? : Option SubtitleWord
  isEnabled : Bool
  syncActive : Bool
deriving Repr, DecidableEq

/-- One tick of `SubtitleOverlayManager.startTimeSync`, given the video
element's `currentTime` reading: past the 0.1-second dead zone the stored
time is updated and a re-render requested (the returned flag records
whether `render()` was called). -/
def syncTick (st : OverlayManagerState) (newTime : ℚ) :
    OverlayManagerState × Bool :=
  if |newTime - st.currentTime| > 1/10 then
    ({ st with currentTime := newTime }, true)
  else
    (st, false)

/-- Observable actions of one navigation re-check, in execution order. -/
inductive SessionEvent where
  | destroyOverlay
  | extract (videoId : String)
  | createContainer
  | setSubtitles (segments : List SubtitleSegment)
deriving Repr, DecidableEq

/-- The mutable fields of the `YouTubeLanguageReactor` content script,
together with the singleton overlay manager it drives. -/
structure ReactorState where
  isInitialized : Bool
  currentVideoId? : Option String
  overlay : OverlayManagerState
deriving Repr, DecidableEq

/-- The page as seen by one navigation re-check: URL state, DOM presence
of the player pieces, and the outcome extraction would produce for the
current video. -/
structure NavEnv where
  onWatchPage : Bool
  urlVideoId? : Option String
  playerPresent : Bool
  videoElementPresent : Bool
  extracted : List SubtitleSegment

/-- `SubtitleOverlayManager.initialize`: fails without a player
container; returns early (reusing the attached container, creating
nothing and not restarting the sync loop) when one is already attached;
otherwise creates the container and, if a video element exists, starts
the sync loop.  Returns the new state, the source's boolean result, and
the emitted events. -/
def overlayInitialize (env : NavEnv) (ov : OverlayManagerState) :
    OverlayManagerState × Bool × List SessionEvent :=
  if !env.playerPresent then (ov, false, [])
  else if ov.hasContainer then (ov, true, [])
  else
    let ov1 : OverlayManagerState :=
      { ov with hasContainer := true, syncActive := env.videoElementPresent || ov.syncActive }
    (ov1, true, [SessionEvent.createContainer])

/-- `SubtitleOverlayManager.destroy`: cancels the animation-frame loop,
unmounts the React root and removes the container. -/
def overlayDestroy (ov : OverlayManagerState) : OverlayManagerState :=
  { ov with hasContainer := false, syncActive := false }

/-- `YouTubeLanguageReactor.cleanup`: clears the initialized flag and
destroys the overlay (the stored `currentVideoId` is left as-is). -/
def cleanup (st : ReactorState) : ReactorState × List SessionEvent :=
  ({ st with isInitialized := false, overlay := overlayDestroy st.overlay },
    [SessionEvent.destroyOverlay])

/-- `YouTubeLanguageReactor.initializeForVideo`: extract subtitles; on an
empty result only log (leaving all state as-is); otherwise initialize the
overlay, and when that succeeds store the segments and set the
initialized flag. -/
def initializeForVideo (env : NavEnv) (vid : String) (st : ReactorState) :
    ReactorState × List SessionEvent :=
  if env.extracted.isEmpty then
    (st, [SessionEvent.extract vid])
  else
    match overlayInitialize env st.overlay with
    | (ov, false, evs) =>
      ({ st with overlay := ov }, SessionEvent.extract vid :: evs)
    | (ov, true, evs) =>
      ({ st with overlay := { ov with segments := env.extracted }, isInitialized := true },
        SessionEvent.extract vid :: evs ++ [SessionEvent.setSubtitles env.extracted])

/-- `YouTubeLanguageReactor.checkAndInitialize`: off a watch page, clean
up; on the same already-initialized video, no-op; otherwise store the new
video id and run `initializeForVideo` (the source's `waitForPlayer` delay
changes no state). -/
def checkAndInitialize (env : NavEnv) (st : ReactorState) :
    ReactorState × List SessionEvent :=
  match env.urlVideoId? with
  | none => cleanup st
  | some vid =>
    if !env.onWatchPage then cleanup st
    else if st.currentVideoId? == some vid && st.isInitialized then (st, [])
    else initializeForVideo env vid { st with currentVideoId? := some vid }

/-- A saved vocabulary record, from `types.ts` `VocabularyItem` (`id` is
the `Date.now()` millisecond value). -/
structure VocabularyItem where
  id : Nat
  originalWord : String
  translation : String
  contextSentence : String
  videoId : String
  videoTitle? : Option String
  timestamp : String
deriving Repr, DecidableEq

instance : Inhabited VocabularyItem :=
  ⟨{ id := 0, originalWord := "", translation := "", contextSentence := ""
     videoId := "", videoTitle? := none, timestamp := "" }⟩

/-- The caller-supplied record, `Omit<VocabularyItem, 'id'>`. -/
structure VocabularyItemInput where
  originalWord : String
  translation : String
  contextSentence : String
  videoId : String
  videoTitle? : Option String
  timestamp : String
deriving Repr, DecidableEq

/-- JavaScript's `toLowerCase`, modelled characterwise (`Char.toLower`
covers the ASCII range the repository's words use). -/
def jsToLower (s : String) : String :=
  (s.toList.map Char.toLower).asString

/-- JavaScript's `trim`: strip leading and trailing whitespace. -/
def jsTrim (l : List Char) : List Char :=
  ((l.dropWhile isWs).reverse.dropWhile isWs).reverse

/-- The `findIndex` predicate of `saveVocabularyItem`:
`v.originalWord.toLowerCase() === item.originalWord.toLowerCase()`. -/
def vocabMatches (item : VocabularyItemInput) (v : VocabularyItem) : Bool :=
  jsToLower v.originalWord == jsToLower item.originalWord

/-- The `newItem` object literal of `saveVocabularyItem`: the input's
fields with the chosen `id` and a fresh timestamp. -/
def mkVocabularyItem (item : VocabularyItemInput) (id : Nat) (nowIso : String) :
    VocabularyItem :=
  { id := id, originalWord := item.originalWord, translation := item.translation
    contextSentence := item.contextSentence, videoId := item.videoId
    videoTitle? := item.videoTitle?, timestamp := nowIso }

/-- `storage.ts` `saveVocabularyItem`, with the stored list, `Date.now()`
and `new Date().toISOString()` passed in.  A case-insensitive match on
`originalWord` keeps the matched entry's id and overwrites it in place;
otherwise a fresh item is appended.  (When `findIdx?` succeeds the index
is in bounds, so `getD`'s default is never consulted — the source indexes
the array directly.) -/
def saveVocabularyItem (vocabulary : List VocabularyItem)
    (item : VocabularyItemInput) (now : Nat) (nowIso : String) :
    List VocabularyItem × VocabularyItem :=
  match vocabulary.findIdx? (vocabMatches item) with
  | some i =>
    let newItem := mkVocabularyItem item (vocabulary.getD i default).id nowIso
    (vocabulary.set i newItem, newItem)
  | none =>
    let newItem := mkVocabularyItem item now nowIso
    (vocabulary ++ [newItem], newItem)

/-- JavaScript's `\w` character class: ASCII letters, digits and
underscore. -/
def isWordChar (c : Char) : Bool :=
  (decide (c ≥ 'a') && decide (c ≤ 'z')) ||
  (decide (c ≥ 'A') && decide (c ≤ 'Z')) ||
  (decide (c ≥ '0') && decide (c ≤ '9')) || c == '_'

/-- The `cleanWord` normalization of `handleGetTranslation`:
`word.replace(/[^\w\s]/g, '').trim().toLowerCase()`. -/
def cleanWordOf (word : String) : String :=
  ((jsTrim (word.toList.filter (fun c => isWordChar c || isWs c))).map
    Char.toLower).asString

/-- The parsed JSON body of a successful `/api/translate` response, with
the fields the API client reads. -/
structure ApiTranslationData where
  word : String
  translation : String
  language? : Option String
  pronunciation? : Option String
  partOfSpeech? : Option String
  definitions? : Option (List String)
deriving Repr, DecidableEq

/-- `api.ts` `translateWord`, with the server's outcome for the requested
word passed in (`none` models a rejected fetch, non-ok status, or parse
failure, all caught by the source): on success the response echoes the
server's fields (defaulting `language` to the request's target language);
on failure the bracketed-placeholder fallback is built from the requested
word. -/
def translateWord (word : String) (targetLanguage : String)
    (server? : Option ApiTranslationData) : TranslationResponse :=
  match server? with
  | some data =>
    { word := data.word, translation := data.translation
      language := data.language?.getD targetLanguage
      pronunciation? := data.pronunciation?, partOfSpeech? := data.partOfSpeech?
      definitions? := data.definitions? }
  | none =>
    { word := word, translation := "[" ++ word ++ "]", language := targetLanguage
      pronunciation? := none, partOfSpeech? := none, definitions? := none }

/-- `storage.ts` `getCachedTranslation`: the cache is keyed by the
lowercased word (`cache[word.toLowerCase()] || null`). -/
def getCachedTranslation (cache : String → Option String) (word : String) :
    Option String :=
  cache (jsToLower word)

/-- The settings fields `handleGetTranslation` reads. -/
structure TranslationSettings where
  sourceLanguage : String
  targetLanguage : String
deriving Repr, DecidableEq

/-- The environment of one `handleGetTranslation` call: current settings,
the translation cache contents, and the server's behaviour as a function
of the word sent to it. -/
structure TranslationEnv where
  settings : TranslationSettings
  cache : String → Option String
  server : String → Option ApiTranslationData

/-- `service-worker.ts` `handleGetTranslation` (the `data` of its
response): normalize the requested word, consult the cache under the
normalized form, and otherwise call the API with the normalized form. -/
def handleGetTranslation (env : TranslationEnv) (requestWord : String) :
    TranslationResponse :=
  let cleanWord := cleanWordOf requestWord
  match getCachedTranslation env.cache cleanWord with
  | some cached =>
    { word := cleanWord, translation := cached
      language := env.settings.targetLanguage
      pronunciation? := none, partOfSpeech? := none, definitions? := none }
  | none =>
    translateWord cleanWord env.settings.targetLanguage (env.server cleanWord)

/-- The spec's concrete parser scenario input:
`<text start="1.0" dur="2.5">Hello world</text>` (one node, `parseFloat`
giving 1 and 2.5, body free of HTML entities). -/
def scenarioNode : XmlTextNode :=
  { start? := some 1, dur? := some 2.5, body := "Hello world".toList }

/-- The segment the scenario is specified to produce. -/
def scenarioSegment : SubtitleSegment :=
  { id := "segment-0", startTime := 1, endTime := 3.5
    text := "Hello world".toList
    words := [{ id := "segment-0-word-0", text := "Hello".toList
                startIndex := 0, endIndex := 5 },
              { id := "segment-0-word-1", text := "world".toList
                startIndex := 6, endIndex := 11 }] }

/-- A concrete caption track used by the locator instances below. -/
def c1Track : CaptionTrack :=
  { baseUrl := "https://example.invalid/timedtext", languageCode := "en" }

/-- A player response whose JSON has no `captions` field at all. -/
def prNoCaptions : PlayerResponse := { captions? := none }

/-- A player response carrying one caption track. -/
def prGood : PlayerResponse :=
  { captions? := some
      { playerCaptionsTracklistRenderer? := some { captionTracks? := some [c1Track] } } }

/-- A page with the live global set to a captionless response while an
inline script holds a response with a non-empty caption-track list. -/
def c1Env : ExtractEnv :=
  { videoId? := some "A"
    page := { winResponse? := some prNoCaptions
              scriptParses := [some prGood]
              ytplayerConfigResponse? := none }
    fetchedParse? := none
    subtitleFetch := fun _ => some [scenarioNode]
    decode := fun t => t }

/-- An extraction environment for a URL with no `?v=` parameter. -/
def noVideoEnv : ExtractEnv :=
  { videoId? := none
    page := { winResponse? := none, scriptParses := [], ytplayerConfigResponse? := none }
    fetchedParse? := none
    subtitleFetch := fun _ => none
    decode := fun t => t }

/-- A subtitle segment of video A, loaded in the active session below. -/
def segA : SubtitleSegment :=
  { id := "segment-0", startTime := 0, endTime := 2, text := [], words := [] }

/-- The subtitle segment extraction yields for video B. -/
def segB : SubtitleSegment :=
  { id := "segment-0", startTime := 0, endTime := 3, text := [], words := [] }

/-- A reactor state with an active, fully initialized session for video
"A": overlay container attached, sync loop running, A's segments set. -/
def stateA : ReactorState :=
  { isInitialized := true
    currentVideoId? := some "A"
    overlay := { hasContainer := true, segments := [segA], currentTime := 0
                 translation? := none, hoveredWord? := none
                 isEnabled := true, syncActive := true } }

/-- The page after an SPA navigation to video "B": still a watch page,
player and video element present, captions available. -/
def navToB : NavEnv :=
  { onWatchPage := true, urlVideoId? := some "B", playerPresent := true
    videoElementPresent := true, extracted := [segB] }

/-- A fresh overlay-manager state used by the sync-tick witness. -/
def ov0 : OverlayManagerState :=
  { hasContainer := true, segments := [], currentTime := 0
    translation? := none, hoveredWord? := none, isEnabled := true
    syncActive := true }

/-- A stored vocabulary item for the upsert witness. -/
def vocabExisting : VocabularyItem :=
  { id := 42, originalWord := "Hello", translation := "xin chao"
    contextSentence := "", videoId := "v0", videoTitle? := none
    timestamp := "t0" }

/-- A save request whose word matches `vocabExisting` only
case-insensitively. -/
def vocabInput : VocabularyItemInput :=
  { originalWord := "HELLO", translation := "xin chao 2"
    contextSentence := "ctx", videoId := "v1", videoTitle? := none
    timestamp := "t1" }

/-- A server reply whose `word` field does not echo the requested word. -/
def c10Data : ApiTranslationData :=
  { word := "SERVER-ECHO", translation := "xin chao", language? := none
    pronunciation? := none, partOfSpeech? := none, definitions? := none }

/-- A translation environment with an empty cache and a server that
always answers with `c10Data`. -/
def c10Env : TranslationEnv :=
  { settings := { sourceLanguage := "en", targetLanguage := "vi" }
    cache := fun _ => none
    server := fun _ => some c10Data }

/-! ### Word-splitter lemmas -/

/-- Every token of `splitTokens pos l` starts at or after `pos`, is a
non-empty all-non-whitespace run, and is recovered from `l` by taking its
length at its offset relative to `pos`. -/
theorem splitTokens_spec (pos : Nat) (l : List Char) :
    ∀ m ∈ splitTokens pos l,
      pos ≤ m.1 ∧ m.2 ≠ [] ∧ (∀ c ∈ m.2, isWs c = false) ∧
      (l.drop (m.1 - pos)).take m.2.length = m.2 := by
  induction pos, l using splitTokens.induct with
  | case1 pos =>
    intro m hm
    simp [splitTokens] at hm
  | case2 pos c rest hws ih =>
    intro m hm
    rw [splitTokens, if_pos hws] at hm
    obtain ⟨h1, h2, h3, h4⟩ := ih m hm
    refine ⟨by omega, h2, h3, ?_⟩
    have hidx : m.1 - pos = (m.1 - (pos + 1)) + 1 := by omega
    rw [hidx, List.drop_succ_cons]
    exact h4
  | case3 pos c rest hws ih =>
    intro m hm
    rw [splitTokens, if_neg hws] at hm
    have hpc : (!isWs c) = true := by simp_all
    rcases List.mem_cons.mp hm with hhead | htail
    · subst hhead
      refine ⟨le_refl _, ?_, ?_, ?_⟩
      · rw [List.takeWhile_cons, if_pos hpc]
        simp
      · intro x hx
        have := List.mem_takeWhile_imp hx
        simpa using this
      · rw [Nat.sub_self, List.drop_zero]
        exact (List.prefix_iff_eq_take.mp (List.takeWhile_prefix _)).symm
    · obtain ⟨h1, h2, h3, h4⟩ := ih m htail
      set tok := (c :: rest).takeWhile (fun x => !isWs x) with htok
      refine ⟨by omega, h2, h3, ?_⟩
      have hsplit : c :: rest =
          tok ++ (c :: rest).dropWhile (fun x => !isWs x) :=
        (List.takeWhile_append_dropWhile _ _).symm
      have hidx : m.1 - pos = tok.length + (m.1 - (pos + tok.length)) := by omega
      rw [hsplit, hidx, List.drop_append]
      exact h4

/-- Tokens are emitted in strictly increasing, non-overlapping position
order: each token ends at or before the next one starts. -/
theorem splitTokens_pairwise (pos : Nat) (l : List Char) :
    List.Pairwise (fun a b => a.1 + a.2.length ≤ b.1) (splitTokens pos l) := by
  induction pos, l using splitTokens.induct with
  | case1 pos =>
    simp [splitTokens]
  | case2 pos c rest hws ih =>
    rw [splitTokens, if_pos hws]
    exact ih
  | case3 pos c rest hws ih =>
    rw [splitTokens, if_neg hws]
    refine List.Pairwise.cons ?_ ih
    intro b hb
    exact (splitTokens_spec _ _ b hb).1

/-- Concatenating the token texts in order yields exactly the
non-whitespace characters of the input, in order. -/
theorem splitTokens_flatten (pos : Nat) (l : List Char) :
    ((splitTokens pos l).map (fun m => m.2)).flatten =
      l.filter (fun c => !isWs c) := by
  induction pos, l using splitTokens.induct with
  | case1 pos =>
    simp [splitTokens]
  | case2 pos c rest hws ih =>
    rw [splitTokens, if_pos hws, List.filter_cons]
    simp only [hws, Bool.not_true, if_neg]
    simpa using ih
  | case3 pos c rest hws ih =>
    rw [splitTokens, if_neg hws, List.map_cons, List.flatten_cons, ih]
    conv_rhs =>
      rw [← List.takeWhile_append_dropWhile (fun x => !isWs x) (c :: rest)]
    rw [List.filter_append]
    congr 1
    refine (List.filter_eq_self.mpr ?_).symm
    intro a ha
    have ha2 : a ∈ List.takeWhile (fun x => !isWs x) (c :: rest) := ha
    exact List.mem_takeWhile_imp (p := fun x => !isWs x) ha2

/-- Unfolds `splitIntoWords` to a plain `map` over the enumerated token
list. -/
theorem splitIntoWords_eq_map (text : List Char) (segmentId : String) :
    splitIntoWords text segmentId =
      (splitTokens 0 text).enum.map
        (Function.uncurry (wordOfToken segmentId)) := by
  rw [splitIntoWords, List.mapIdx_eq_enum_map]

/-- Every produced word comes from a token: same text, offsets delimiting
that token. -/
theorem mem_splitIntoWords (text : List Char) (segmentId : String)
    (w : SubtitleWord) (hw : w ∈ splitIntoWords text segmentId) :
    ∃ i m, m ∈ splitTokens 0 text ∧ w = wordOfToken segmentId i m := by
  rw [splitIntoWords_eq_map] at hw
  obtain ⟨x, hx, hxe⟩ := List.mem_map.mp hw
  obtain ⟨hi, hval⟩ := List.mem_enum hx
  refine ⟨x.1, x.2, ?_, ?_⟩
  · rw [hval]
    exact List.getElem_mem hi
  · exact hxe.symm

/-- The substring a word's offsets select from the segment text is the
word's own token text. -/
theorem wordSubstring_eq_token (text : List Char) (segmentId : String)
    (i : Nat) (m : Nat × List Char) (hm : m ∈ splitTokens 0 text) :
    wordSubstring text (wordOfToken segmentId i m) = m.2 := by
  obtain ⟨-, -, -, h4⟩ := splitTokens_spec 0 text m hm
  simp only [wordSubstring, wordOfToken, Nat.add_sub_cancel_left]
  simpa using h4

/-- Evaluation of the parser on the spec's scenario input. -/
theorem parseXml_scenario :
    parseXml (fun t => t) [scenarioNode] = [scenarioSegment] := by
  simp [parseXml, scenarioNode, scenarioSegment, splitIntoWords, splitTokens,
    wordOfToken, isWs, segIdString, String.toList]
  refine ⟨?_, ?_, ?_, ?_⟩ <;> first | decide | norm_num

/-- Segment membership in a parse inverts to a node at the same index. -/
theorem mem_parseXml (d : List Char → List Char) (nodes : List XmlTextNode)
    (seg : SubtitleSegment) (h : seg ∈ parseXml d nodes) :
    ∃ n el, nodes[n]? = some el ∧
      seg = { id := segIdString n, startTime := el.start?.getD 0
              endTime := el.start?.getD 0 + el.dur?.getD 0
              text := d el.body
              words := splitIntoWords (d el.body) (segIdString n) } := by
  obtain ⟨n, hn⟩ := List.mem_iff_getElem?.mp h
  rw [parseXml, List.getElem?_mapIdx] at hn
  cases hel : nodes[n]? with
  | none => rw [hel] at hn; simp at hn
  | some el =>
    rw [hel] at hn
    simp only [Option.map_some', Option.some_inj] at hn
    exact ⟨n, el, hel, hn.symm⟩

/-- The word substrings of a split, in order, are exactly the token
texts. -/
theorem splitIntoWords_map_substring (text : List Char) (segmentId : String) :
    (splitIntoWords text segmentId).map (wordSubstring text) =
      (splitTokens 0 text).map (fun m => m.2) := by
  rw [splitIntoWords_eq_map, List.map_map]
  conv_rhs => rw [← List.enum_map_snd (splitTokens 0 text), List.map_map]
  refine List.map_congr_left ?_
  intro x hx
  obtain ⟨i, m⟩ := x
  obtain ⟨hi, hval⟩ := List.mem_enum hx
  have hm : m ∈ splitTokens 0 text := by
    rw [hval]
    exact List.getElem_mem hi
  simpa [Function.uncurry] using wordSubstring_eq_token text segmentId i m hm

/-- C3: For every timed-text XML input, each `<text>` node becomes exactly
one Segment in source order, with `startTime` equal to the node's `start`
attribute, `endTime` equal to `start + dur`, and a missing `start` or
`dur` attribute treated as 0; in particular the input
`<text start="1.0" dur="2.5">Hello world</text>` yields one Segment with
startTime 1.0, endTime 3.5, and Words "Hello" at offsets (0,5) and
"world" at offsets (6,11). -/
theorem parseXml_nodewise :
    (∀ (d : List Char → List Char) (nodes : List XmlTextNode),
      (parseXml d nodes).length = nodes.length ∧
      ∀ i : Nat, (parseXml d nodes)[i]? = nodes[i]?.map (fun el =>
        { id := segIdString i, startTime := el.start?.getD 0
          endTime := el.start?.getD 0 + el.dur?.getD 0
          text := d el.body
          words := splitIntoWords (d el.body) (segIdString i) }))
    ∧ parseXml (fun t => t) [scenarioNode] = [scenarioSegment] := by
  refine ⟨fun d nodes => ⟨?_, fun i => ?_⟩, parseXml_scenario⟩
  · rw [parseXml]
    exact List.length_mapIdx
  · rw [parseXml, List.getElem?_mapIdx]

/-- C4: For every Segment produced by word splitting, concatenating each
Word's substring of the decoded segment text (taken at its offsets) in
word order reproduces exactly the segment text with all whitespace
removed. -/
theorem words_reconstruct_text :
    (∀ (text : List Char) (segmentId : String),
      ((splitIntoWords text segmentId).map (wordSubstring text)).flatten =
        text.filter (fun c => !isWs c))
    ∧ (∀ (d : List Char → List Char) (nodes : List XmlTextNode)
        (seg : SubtitleSegment), seg ∈ parseXml d nodes →
        ((seg.words.map (wordSubstring seg.text)).flatten =
          seg.text.filter (fun c => !isWs c))) := by
  have hgen : ∀ (text : List Char) (segmentId : String),
      ((splitIntoWords text segmentId).map (wordSubstring text)).flatten =
        text.filter (fun c => !isWs c) := by
    intro text segmentId
    rw [splitIntoWords_map_substring, splitTokens_flatten]
  refine ⟨hgen, fun d nodes seg hseg => ?_⟩
  obtain ⟨n, el, -, rfl⟩ := mem_parseXml d nodes seg hseg
  exact hgen (d el.body) (segIdString n)

/-- Closed witness for the C4 theorem, instantiating its segment-level
part on the parsed scenario segment. -/
theorem words_reconstruct_text_witness :
    scenarioSegment ∈ parseXml (fun t => t) [scenarioNode] ∧
    ((scenarioSegment.words.map (wordSubstring scenarioSegment.text)).flatten =
      scenarioSegment.text.filter (fun c => !isWs c)) := by
  have hmem : scenarioSegment ∈ parseXml (fun t => t) [scenarioNode] := by
    rw [parseXml_scenario]
    exact List.mem_singleton.mpr rfl
  exact ⟨hmem, words_reconstruct_text.2 (fun t => t) [scenarioNode]
    scenarioSegment hmem⟩

/-- C5: In every Segment produced by word splitting, offsets are
monotonically increasing: any earlier word ends at or before a later word
starts, no two Words overlap, every Word is non-empty, and no Word's
substring contains a whitespace character. -/
theorem word_offsets_invariant :
    (∀ (text : List Char) (segmentId : String),
      List.Pairwise (fun w1 w2 => w1.endIndex ≤ w2.startIndex)
        (splitIntoWords text segmentId) ∧
      ∀ w ∈ splitIntoWords text segmentId,
        w.startIndex < w.endIndex ∧
        ∀ c ∈ wordSubstring text w, isWs c = false)
    ∧ (∀ (d : List Char → List Char) (nodes : List XmlTextNode)
        (seg : SubtitleSegment), seg ∈ parseXml d nodes →
        List.Pairwise (fun w1 w2 => w1.endIndex ≤ w2.startIndex) seg.words ∧
        ∀ w ∈ seg.words,
          w.startIndex < w.endIndex ∧
          ∀ c ∈ wordSubstring seg.text w, isWs c = false) := by
  have hgen : ∀ (text : List Char) (segmentId : String),
      List.Pairwise (fun w1 w2 => w1.endIndex ≤ w2.startIndex)
        (splitIntoWords text segmentId) ∧
      ∀ w ∈ splitIntoWords text segmentId,
        w.startIndex < w.endIndex ∧
        ∀ c ∈ wordSubstring text w, isWs c = false := by
    intro text segmentId
    constructor
    · rw [splitIntoWords_eq_map]
      refine List.pairwise_map.mpr ?_
      have h1 : List.Pairwise (fun a b => a.1 + a.2.length ≤ b.1)
          ((splitTokens 0 text).enum.map Prod.snd) := by
        rw [List.enum_map_snd]
        exact splitTokens_pairwise 0 text
      have h2 := List.pairwise_map.mp h1
      refine h2.imp ?_
      intro a b hab
      simpa [Function.uncurry, wordOfToken] using hab
    · intro w hw
      obtain ⟨i, m, hm, rfl⟩ := mem_splitIntoWords text segmentId w hw
      obtain ⟨-, hne, hnws, -⟩ := splitTokens_spec 0 text m hm
      constructor
      · simp only [wordOfToken]
        have : 0 < m.2.length := List.length_pos.mpr hne
        omega
      · rw [wordSubstring_eq_token text segmentId i m hm]
        exact hnws
  refine ⟨hgen, fun d nodes seg hseg => ?_⟩
  obtain ⟨n, el, -, rfl⟩ := mem_parseXml d nodes seg hseg
  exact hgen (d el.body) (segIdString n)

/-- Closed witness for the C5 theorem, instantiating its segment-level
part on the parsed scenario segment. -/
theorem word_offsets_invariant_witness :
    scenarioSegment ∈ parseXml (fun t => t) [scenarioNode] ∧
    List.Pairwise (fun w1 w2 => w1.endIndex ≤ w2.startIndex)
      scenarioSegment.words := by
  have hmem : scenarioSegment ∈ parseXml (fun t => t) [scenarioNode] := by
    rw [parseXml_scenario]
    exact List.mem_singleton.mpr rfl
  exact ⟨hmem, (word_offsets_invariant.2 (fun t => t) [scenarioNode]
    scenarioSegment hmem).1⟩

/-! ### Active-segment resolution -/

/-- The Boolean segment predicate unpacks to the specified time window. -/
theorem segActive_iff (t : ℚ) (s : SubtitleSegment) :
    segActive t s = true ↔ s.startTime ≤ t ∧ t < s.endTime := by
  simp [segActive, ge_iff_le, and_comm]

/-- In an ordered, non-overlapping, well-formed segment list every
segment ends at or before the last segment ends. -/
theorem endTime_le_getLast (l : List SubtitleSegment) (h : l ≠ [])
    (hord : List.Pairwise (fun a b => a.endTime ≤ b.startTime) l)
    (hwf : ∀ s ∈ l, s.startTime ≤ s.endTime) :
    ∀ s ∈ l, s.endTime ≤ (l.getLast h).endTime := by
  induction l with
  | nil => cases h rfl
  | cons a tail ih =>
    intro s hs
    cases tail with
    | nil =>
      rcases List.mem_singleton.mp hs with rfl
      simp [List.getLast]
    | cons b rest =>
      rw [List.getLast_cons (by simp)]
      have htail_ord := (List.pairwise_cons.mp hord).2
      have htail_wf : ∀ x ∈ b :: rest, x.startTime ≤ x.endTime :=
        fun x hx => hwf x (List.mem_cons_of_mem a hx)
      rcases List.mem_cons.mp hs with rfl | hs2
      · have hab : s.endTime ≤ b.startTime :=
          (List.pairwise_cons.mp hord).1 b (by simp)
        have hbb : b.startTime ≤ b.endTime := htail_wf b (by simp)
        have hlast := ih (by simp) htail_ord htail_wf b (by simp)
        calc s.endTime ≤ b.startTime := hab
          _ ≤ b.endTime := hbb
          _ ≤ _ := hlast
      · exact ih (by simp) htail_ord htail_wf s hs2

/-- C6: For a fixed segment sequence and time `t`, active-segment
resolution returns the first segment satisfying
`startTime ≤ t < endTime` and `none` when no segment satisfies it;
repeated queries agree; and on an ordered, non-overlapping sequence the
result is `none` for `t` before the first segment's start or at/after
the last segment's end. -/
theorem getCurrentSegment_first_match :
    ∀ (subs : List SubtitleSegment) (t : ℚ),
      (getCurrentSegment subs t = none ↔
        ∀ s ∈ subs, ¬(s.startTime ≤ t ∧ t < s.endTime))
      ∧ (∀ s, getCurrentSegment subs t = some s →
          (s.startTime ≤ t ∧ t < s.endTime) ∧
          ∃ pre post, subs = pre ++ s :: post ∧
            ∀ x ∈ pre, ¬(x.startTime ≤ t ∧ t < x.endTime))
      ∧ (∀ r1 r2 : Option SubtitleSegment,
          r1 = getCurrentSegment subs t → r2 = getCurrentSegment subs t →
          r1 = r2)
      ∧ (∀ (s0 : SubtitleSegment) (rest : List SubtitleSegment),
          subs = s0 :: rest →
          List.Pairwise (fun a b => a.endTime ≤ b.startTime) subs →
          (∀ s ∈ subs, s.startTime ≤ s.endTime) →
          ∀ h : subs ≠ [],
          (t < s0.startTime ∨ (subs.getLast h).endTime ≤ t) →
          getCurrentSegment subs t = none) := by
  intro subs t
  refine ⟨?_, ?_, ?_, ?_⟩
  · rw [getCurrentSegment, List.find?_eq_none]
    constructor
    · intro hall s hs hpred
      exact hall s hs ((segActive_iff t s).mpr hpred)
    · intro hall s hs hpred
      exact hall s hs ((segActive_iff t s).mp hpred)
  · intro s hfind
    rw [getCurrentSegment] at hfind
    obtain ⟨hps, pre, post, heq, hpre⟩ := List.find?_eq_some.mp hfind
    refine ⟨(segActive_iff t s).mp hps, pre, post, heq, ?_⟩
    intro x hx hpred
    have := hpre x hx
    rw [(segActive_iff t x).mpr hpred] at this
    simp at this
  · intro r1 r2 h1 h2
    rw [h1, h2]
  · rintro s0 rest rfl hord hwf h hbound
    rw [getCurrentSegment, List.find?_eq_none]
    intro x hx
    rw [segActive_iff]
    rcases hbound with hlt | hge
    · rcases List.mem_cons.mp hx with rfl | hx2
      · intro hc
        exact absurd hc.1 (by exact not_le.mpr hlt)
      · have h1 : s0.endTime ≤ x.startTime :=
          (List.pairwise_cons.mp hord).1 x hx2
        have h0 : s0.startTime ≤ s0.endTime := hwf s0 (by simp)
        intro hc
        have : x.startTime ≤ t := hc.1
        have : s0.startTime ≤ t := by linarith
        linarith
    · have hend := endTime_le_getLast (s0 :: rest) h hord hwf x hx
      intro hc
      have : t < x.endTime := hc.2
      linarith

/-- Closed witness for the C6 theorem: a two-segment ordered sequence,
queried inside the first window, at a covered boundary, and past the
end. -/
theorem getCurrentSegment_first_match_witness :
    getCurrentSegment
        [{ id := "segment-0", startTime := 0, endTime := 2
           text := [], words := [] },
         { id := "segment-1", startTime := 2, endTime := 4
           text := [], words := [] }] 5 = none := by
  have h := (getCurrentSegment_first_match
    [{ id := "segment-0", startTime := 0, endTime := 2
       text := [], words := [] },
     { id := "segment-1", startTime := 2, endTime := 4
       text := [], words := [] }] 5).2.2.2
  refine h { id := "segment-0", startTime := 0, endTime := 2
             text := [], words := [] }
    [{ id := "segment-1", startTime := 2, endTime := 4
       text := [], words := [] }] rfl ?_ ?_ (by simp) ?_
  · refine List.pairwise_cons.mpr ⟨?_, ?_⟩
    · intro b hb
      rcases List.mem_singleton.mp hb with rfl
      norm_num
    · simp
  · intro s hs
    rcases List.mem_cons.mp hs with rfl | hs2
    · norm_num
    · rcases List.mem_singleton.mp hs2 with rfl
      norm_num
  · right
    norm_num [List.getLast]

/-! ### Extraction error handling and the locator chain -/

/-- C7: Subtitle extraction never propagates an exception: every thrown
error is caught and becomes the empty segment list, and each failure mode
— no video id, no player response from any strategy, absent or empty
caption-track list, failed caption fetch, or XML with no nodes — yields
the empty segment list. -/
theorem extractSubtitles_failure_empty :
    ∀ (env : ExtractEnv) (lang? : Option String),
      (∀ e, extractSubtitlesE env lang? = .error e →
        extractSubtitles env lang? = [])
      ∧ (env.videoId? = none → extractSubtitles env lang? = [])
      ∧ (resolvePlayerResponse env = none → extractSubtitles env lang? = [])
      ∧ (∀ pr, resolvePlayerResponse env = some pr →
          getCaptionTracks pr = none ∨ getCaptionTracks pr = some [] →
          extractSubtitles env lang? = [])
      ∧ (∀ pr t0 ts, resolvePlayerResponse env = some pr →
          getCaptionTracks pr = some (t0 :: ts) →
          env.subtitleFetch (selectTrack lang? t0 (t0 :: ts)).baseUrl = none →
          extractSubtitles env lang? = [])
      ∧ (∀ pr t0 ts, resolvePlayerResponse env = some pr →
          getCaptionTracks pr = some (t0 :: ts) →
          env.subtitleFetch (selectTrack lang? t0 (t0 :: ts)).baseUrl = some [] →
          extractSubtitles env lang? = []) := by
  intro env lang?
  refine ⟨?_, ?_, ?_, ?_, ?_, ?_⟩
  · intro e he
    rw [extractSubtitles, he]
  · intro h
    simp [extractSubtitles, extractSubtitlesE, h]
  · intro h
    cases hv : env.videoId? <;>
      simp [extractSubtitles, extractSubtitlesE, hv, h]
  · intro pr hpr htr
    cases hv : env.videoId? <;> rcases htr with h1 | h1 <;>
      simp [extractSubtitles, extractSubtitlesE, hv, hpr, h1]
  · intro pr t0 ts hpr htr hf
    cases hv : env.videoId? <;>
      simp [extractSubtitles, extractSubtitlesE, hv, hpr, htr, hf]
  · intro pr t0 ts hpr htr hf
    cases hv : env.videoId? <;>
      simp [extractSubtitles, extractSubtitlesE, hv, hpr, htr, hf, parseXml]

/-- Closed witness for the C7 theorem: a URL without a video id yields
the empty list. -/
theorem extractSubtitles_failure_empty_witness :
    noVideoEnv.videoId? = none ∧ extractSubtitles noVideoEnv none = [] :=
  ⟨rfl, (extractSubtitles_failure_empty noVideoEnv none).2.1 rfl⟩

/-- C1 counterexample: with the live global set to a response with no
captions while an inline script holds a response with a non-empty
caption-track list, the in-page chain returns the unusable global (so a
later strategy is never consulted even though the prior one yielded
nothing usable), and extraction falls through to the background fetch
and ends with the empty list instead of the inline script's usable
result. -/
theorem caption_locator_counterexample :
    c1Env.page.winResponse? = some prNoCaptions
    ∧ hasCaptions prNoCaptions = false
    ∧ (c1Env.page.scriptParses.filterMap id).find? (fun r => hasCaptions r) =
        some prGood
    ∧ getCaptionTracks prGood = some [c1Track]
    ∧ getPlayerResponse c1Env.page = some prNoCaptions
    ∧ extractSubtitles c1Env none = []
    ∧ parseXml c1Env.decode [scenarioNode] ≠ [] := by
  refine ⟨rfl, rfl, rfl, rfl, rfl, rfl, ?_⟩
  intro h
  have : (parseXml c1Env.decode [scenarioNode]).length = 0 := by rw [h]; rfl
  rw [parseXml, List.length_mapIdx] at this
  simp at this

/-- C1 (amended): The in-page chain tries the window global, the
inline-script scan and the legacy config in that order, but each is
accepted by a weaker condition than a non-empty caption-track list — the
global and the legacy config are used whenever present, and a script
parse is accepted as soon as its JSON has a `captions` field — and once
one is accepted the later in-page strategies are skipped.  Only when the
chain yields nothing, or a response without a non-empty caption-track
list, does the background fetch run, and only the background fetch
requires a non-empty caption-track list. -/
theorem caption_locator_chain :
    ∀ (env : ExtractEnv),
      (∀ r, env.page.winResponse? = some r →
        getPlayerResponse env.page = some r)
      ∧ (env.page.winResponse? = none →
          ∀ r, (env.page.scriptParses.filterMap id).find?
              (fun x => x.captions?.isSome) = some r →
            getPlayerResponse env.page = some r)
      ∧ (env.page.winResponse? = none →
          (env.page.scriptParses.filterMap id).find?
              (fun x => x.captions?.isSome) = none →
          getPlayerResponse env.page = env.page.ytplayerConfigResponse?)
      ∧ (∀ r, getPlayerResponse env.page = some r → hasCaptions r = true →
          resolvePlayerResponse env = some r)
      ∧ (∀ r, getPlayerResponse env.page = some r → hasCaptions r = false →
          resolvePlayerResponse env = fetchPlayerResponseFallback env)
      ∧ (getPlayerResponse env.page = none →
          resolvePlayerResponse env = fetchPlayerResponseFallback env)
      ∧ (∀ r, fetchPlayerResponseFallback env = some r →
          hasCaptions r = true) := by
  intro env
  refine ⟨?_, ?_, ?_, ?_, ?_, ?_, ?_⟩
  · intro r h
    rw [getPlayerResponse, h]
  · intro hwin r h
    rw [getPlayerResponse, hwin, h]
  · intro hwin h
    rw [getPlayerResponse, hwin, h]
  · intro r h hc
    simp [resolvePlayerResponse, h, hc]
  · intro r h hc
    simp [resolvePlayerResponse, h, hc]
  · intro h
    rw [resolvePlayerResponse, h]
  · intro r h
    cases hf : env.fetchedParse? with
    | none => simp [fetchPlayerResponseFallback, hf] at h
    | some r2 =>
      by_cases hc : hasCaptions r2 = true
      · simp [fetchPlayerResponseFallback, hf, hc] at h
        rw [← h]
        exact hc
      · simp [fetchPlayerResponseFallback, hf, hc] at h

/-- Closed witness for the amended C1 theorem, instantiated on the
counterexample page: the present global wins regardless of its
contents, and the chain result failing `hasCaptions` is replaced by the
background-fetch fallback. -/
theorem caption_locator_chain_witness :
    c1Env.page.winResponse? = some prNoCaptions
    ∧ getPlayerResponse c1Env.page = some prNoCaptions
    ∧ hasCaptions prNoCaptions = false
    ∧ resolvePlayerResponse c1Env = fetchPlayerResponseFallback c1Env :=
  ⟨rfl, (caption_locator_chain c1Env).1 prNoCaptions rfl, rfl,
    (caption_locator_chain c1Env).2.2.2.2.1 prNoCaptions
      ((caption_locator_chain c1Env).1 prNoCaptions rfl) rfl⟩

/-! ### Session lifecycle -/

/-- With a container already attached, `initialize` reuses it: state is
untouched and nothing is emitted. -/
theorem overlayInitialize_reuse (env : NavEnv) (ov : OverlayManagerState)
    (h : ov.hasContainer = true) :
    (overlayInitialize env ov).1 = ov ∧ (overlayInitialize env ov).2.2 = [] := by
  rw [overlayInitialize]
  by_cases hp : env.playerPresent <;> simp [hp, h]

/-- `initialize` emits a container creation only from a container-less
state. -/
theorem overlayInitialize_create_mem (env : NavEnv) (ov : OverlayManagerState)
    (h : SessionEvent.createContainer ∈ (overlayInitialize env ov).2.2) :
    ov.hasContainer = false := by
  by_cases hc : ov.hasContainer
  · exfalso
    rw [overlayInitialize] at h
    by_cases hp : env.playerPresent <;> simp [hp, hc] at h
  · simpa using hc

/-- `initialize` never destroys anything. -/
theorem overlayInitialize_no_destroy (env : NavEnv) (ov : OverlayManagerState) :
    SessionEvent.destroyOverlay ∉ (overlayInitialize env ov).2.2 := by
  rw [overlayInitialize]
  by_cases hp : env.playerPresent <;> by_cases hc : ov.hasContainer <;>
    simp [hp, hc]

/-- `initialize` never stops a running sync loop. -/
theorem overlayInitialize_sync (env : NavEnv) (ov : OverlayManagerState)
    (h : ov.syncActive = true) :
    (overlayInitialize env ov).1.syncActive = true := by
  rw [overlayInitialize]
  by_cases hp : env.playerPresent <;> by_cases hc : ov.hasContainer <;>
    simp [hp, hc, h]

/-- `initialize` never detaches an attached container. -/
theorem overlayInitialize_container (env : NavEnv) (ov : OverlayManagerState)
    (h : ov.hasContainer = true) :
    (overlayInitialize env ov).1.hasContainer = true := by
  rw [(overlayInitialize_reuse env ov h).1]
  exact h

/-- `initializeForVideo` starts with acquisition and never destroys. -/
theorem initializeForVideo_events (env : NavEnv) (vid : String)
    (st : ReactorState) :
    SessionEvent.destroyOverlay ∉ (initializeForVideo env vid st).2
    ∧ (initializeForVideo env vid st).2.head? =
        some (SessionEvent.extract vid) := by
  rw [initializeForVideo]
  by_cases he : env.extracted.isEmpty
  · simp [he]
  · rcases hoi : overlayInitialize env st.overlay with ⟨ov, ok, evs⟩
    have hnd := overlayInitialize_no_destroy env st.overlay
    rw [hoi] at hnd
    simp only at hnd
    cases ok <;> simp [he, hoi] <;> simpa using hnd

/-- `initializeForVideo` preserves a running sync loop and an attached
container, and emits a creation only from a container-less state. -/
theorem initializeForVideo_state (env : NavEnv) (vid : String)
    (st : ReactorState) :
    (st.overlay.syncActive = true →
      (initializeForVideo env vid st).1.overlay.syncActive = true)
    ∧ (st.overlay.hasContainer = true →
      (initializeForVideo env vid st).1.overlay.hasContainer = true
      ∧ SessionEvent.createContainer ∉ (initializeForVideo env vid st).2)
    ∧ (SessionEvent.createContainer ∈ (initializeForVideo env vid st).2 →
      st.overlay.hasContainer = false) := by
  rw [initializeForVideo]
  by_cases he : env.extracted.isEmpty
  · simp [he]
  · rcases hoi : overlayInitialize env st.overlay with ⟨ov, ok, evs⟩
    have hsync := overlayInitialize_sync env st.overlay
    have hcont := overlayInitialize_container env st.overlay
    have hreuse := overlayInitialize_reuse env st.overlay
    have hcreate := overlayInitialize_create_mem env st.overlay
    rw [hoi] at hsync hcont hreuse hcreate
    simp only at hsync hcont hreuse hcreate
    cases ok
    · refine ⟨fun h => ?_, fun h => ?_, fun h => ?_⟩
      · simp [he, hoi]
        exact hsync h
      · refine ⟨?_, ?_⟩
        · simp [he, hoi]
          exact hcont h
        · simp [he, hoi]
          have := (hreuse h).2
          simp [this]
      · simp [he, hoi] at h
        exact hcreate h
    · refine ⟨fun h => ?_, fun h => ?_, fun h => ?_⟩
      · simp [he, hoi]
        exact hsync h
      · refine ⟨?_, ?_⟩
        · simp [he, hoi]
          exact hcont h
        · simp [he, hoi]
          have := (hreuse h).2
          simp [this]
      · simp [he, hoi] at h
        exact hcreate h

/-- C2 counterexample: with an active initialized session for video "A"
(container attached, sync loop running) and a navigation re-check seeing
video "B", the emitted trace is acquisition for B followed by segment
replacement — no teardown event at all — and A's container and sync loop
survive into B's session, reused in place. -/
theorem session_teardown_counterexample :
    (checkAndInitialize navToB stateA).2 =
      [SessionEvent.extract "B", SessionEvent.setSubtitles [segB]]
    ∧ SessionEvent.destroyOverlay ∉ (checkAndInitialize navToB stateA).2
    ∧ (checkAndInitialize navToB stateA).1.overlay.hasContainer = true
    ∧ (checkAndInitialize navToB stateA).1.overlay.syncActive = true
    ∧ (checkAndInitialize navToB stateA).1.currentVideoId? = some "B"
    ∧ (checkAndInitialize navToB stateA).1.overlay.segments = [segB]
    ∧ stateA.currentVideoId? = some "A"
    ∧ stateA.isInitialized = true := by
  decide

/-- C2 (amended): On a re-check that finds a watch page whose video id is
not the already-initialized one, the code performs no teardown: the trace
begins with acquisition for the new id, contains no destroy, a running
sync loop stays running, and an attached overlay container is reused
(never destroyed, never duplicated — a creation is only ever emitted from
a container-less state).  Teardown (overlay destroyed, sync loop
cancelled) happens exactly when a re-check finds a non-watch page. -/
theorem session_lifecycle :
    ∀ (env : NavEnv) (st : ReactorState) (vid : String),
      (env.urlVideoId? = some vid → env.onWatchPage = true →
        ¬(st.currentVideoId? = some vid ∧ st.isInitialized = true) →
        SessionEvent.destroyOverlay ∉ (checkAndInitialize env st).2
        ∧ (checkAndInitialize env st).2.head? =
            some (SessionEvent.extract vid)
        ∧ (st.overlay.syncActive = true →
            (checkAndInitialize env st).1.overlay.syncActive = true)
        ∧ (st.overlay.hasContainer = true →
            (checkAndInitialize env st).1.overlay.hasContainer = true
            ∧ SessionEvent.createContainer ∉ (checkAndInitialize env st).2))
      ∧ ((env.urlVideoId? = none ∨ env.onWatchPage = false) →
          checkAndInitialize env st = cleanup st
          ∧ (checkAndInitialize env st).1.overlay.hasContainer = false
          ∧ (checkAndInitialize env st).1.overlay.syncActive = false
          ∧ (checkAndInitialize env st).2 = [SessionEvent.destroyOverlay])
      ∧ (SessionEvent.createContainer ∈ (checkAndInitialize env st).2 →
          st.overlay.hasContainer = false) := by
  intro env st vid
  refine ⟨?_, ?_, ?_⟩
  · intro hurl hwatch hnot
    have hcond : (st.currentVideoId? == some vid && st.isInitialized) = false := by
      by_cases h1 : st.currentVideoId? = some vid
      · by_cases h2 : st.isInitialized = true
        · exact absurd ⟨h1, h2⟩ hnot
        · simp [h2, Bool.eq_false_iff.mpr h2]
      · simp [h1]
    rw [checkAndInitialize, hurl]
    simp only [hwatch, Bool.not_true, Bool.false_eq_true, if_false, hcond,
      if_neg (by simp : ¬(false = true))]
    refine ⟨(initializeForVideo_events env vid _).1,
      (initializeForVideo_events env vid _).2, ?_, ?_⟩
    · exact (initializeForVideo_state env vid { st with currentVideoId? := some vid }).1
    · exact (initializeForVideo_state env vid { st with currentVideoId? := some vid }).2.1
  · intro hoff
    have : checkAndInitialize env st = cleanup st := by
      rcases hoff with h | h
      · rw [checkAndInitialize, h]
      · rw [checkAndInitialize]
        cases hu : env.urlVideoId? with
        | none => rfl
        | some v => simp [h]
    refine ⟨this, ?_, ?_, ?_⟩ <;> rw [this] <;> rfl
  · intro hmem
    rw [checkAndInitialize] at hmem
    cases hu : env.urlVideoId? with
    | none =>
      rw [hu] at hmem
      simp [cleanup] at hmem
    | some v =>
      rw [hu] at hmem
      by_cases hw : env.onWatchPage
      · simp only [hw, Bool.not_true, Bool.false_eq_true, if_false] at hmem
        by_cases hcond : (st.currentVideoId? == some v && st.isInitialized) = true
        · rw [if_pos hcond] at hmem
          simp at hmem
        · rw [if_neg hcond] at hmem
          exact (initializeForVideo_state env v { st with currentVideoId? := some v }).2.2 hmem
      · simp only [Bool.eq_false_iff.mpr hw] at hmem
        simp [cleanup] at hmem

/-- Closed witness for the amended C2 theorem, instantiated on the
A-to-B navigation: no destroy in the trace, acquisition first, container
and sync loop preserved. -/
theorem session_lifecycle_witness :
    navToB.urlVideoId? = some "B"
    ∧ SessionEvent.destroyOverlay ∉ (checkAndInitialize navToB stateA).2
    ∧ (checkAndInitialize navToB stateA).2.head? =
        some (SessionEvent.extract "B") := by
  have h := (session_lifecycle navToB stateA "B").1 rfl rfl (by decide)
  exact ⟨rfl, h.1, h.2.1⟩

/-! ### Sync tick, vocabulary upsert, translation normalization -/

/-- C8: On each sync tick, if the video's current time differs from the
last-observed time by more than 0.1 seconds the stored time is updated
and a re-render requested; otherwise the tick is a no-op: the whole
manager state (stored time included) is unchanged and no re-render is
requested. -/
theorem sync_tick_dead_zone :
    ∀ (st : OverlayManagerState) (newTime : ℚ),
      (|newTime - st.currentTime| > 1/10 →
        syncTick st newTime = ({ st with currentTime := newTime }, true))
      ∧ (¬|newTime - st.currentTime| > 1/10 →
        syncTick st newTime = (st, false)) := by
  intro st newTime
  refine ⟨fun h => ?_, fun h => ?_⟩
  · rw [syncTick, if_pos h]
  · rw [syncTick, if_neg h]

/-- Closed witness for the C8 theorem: a one-second jump re-renders, a
0.05-second drift does not. -/
theorem sync_tick_dead_zone_witness :
    ((|(1 : ℚ) - ov0.currentTime| > 1/10) ∧
      syncTick ov0 1 = ({ ov0 with currentTime := 1 }, true)) ∧
    ((¬|(1/20 : ℚ) - ov0.currentTime| > 1/10) ∧
      syncTick ov0 (1/20) = (ov0, false)) :=
  ⟨⟨by norm_num [ov0], (sync_tick_dead_zone ov0 1).1 (by norm_num [ov0])⟩,
   ⟨by norm_num [ov0, abs_le], (sync_tick_dead_zone ov0 (1/20)).2
     (by norm_num [ov0, abs_le])⟩⟩

/-- C9: Saving a vocabulary item whose `originalWord` matches an existing
stored item case-insensitively updates that item in place — the list
length is unchanged, the matched index is overwritten, every other index
is untouched, and the existing item's id is preserved; saving a word with
no case-insensitive match appends exactly one new item. -/
theorem vocabulary_upsert :
    ∀ (vocab : List VocabularyItem) (item : VocabularyItemInput)
      (now : Nat) (nowIso : String),
      ((∃ v ∈ vocab, vocabMatches item v = true) →
        (saveVocabularyItem vocab item now nowIso).1.length = vocab.length
        ∧ ∃ i old, vocab.findIdx? (vocabMatches item) = some i
            ∧ vocab[i]? = some old
            ∧ (saveVocabularyItem vocab item now nowIso).1 =
                vocab.set i (mkVocabularyItem item old.id nowIso)
            ∧ (saveVocabularyItem vocab item now nowIso).1[i]? =
                some (mkVocabularyItem item old.id nowIso)
            ∧ (∀ j, j ≠ i →
                (saveVocabularyItem vocab item now nowIso).1[j]? = vocab[j]?)
            ∧ (mkVocabularyItem item old.id nowIso).id = old.id)
      ∧ ((∀ v ∈ vocab, vocabMatches item v = false) →
        (saveVocabularyItem vocab item now nowIso).1 =
          vocab ++ [mkVocabularyItem item now nowIso]
        ∧ (saveVocabularyItem vocab item now nowIso).1.length =
            vocab.length + 1) := by
  intro vocab item now nowIso
  constructor
  · intro hex
    obtain ⟨v, hv, hmatch⟩ := hex
    have hfind := List.findIdx?_eq_some_of_exists
      (p := vocabMatches item) ⟨v, hv, hmatch⟩
    have hlt := List.findIdx_lt_length_of_exists
      (p := vocabMatches item) ⟨v, hv, hmatch⟩
    set i := vocab.findIdx (vocabMatches item) with hidef
    have hold : vocab[i]? = some vocab[i] := List.getElem?_eq_getElem hlt
    have hgetD : vocab.getD i default = vocab[i] := by
      rw [List.getD_eq_getElem?_getD, hold]
      rfl
    have hsave : (saveVocabularyItem vocab item now nowIso).1 =
        vocab.set i (mkVocabularyItem item vocab[i].id nowIso) := by
      rw [saveVocabularyItem, hfind]
      simp [hold]
    refine ⟨by rw [hsave, List.length_set], i, vocab[i], hfind, hold,
      hsave, ?_, ?_, rfl⟩
    · rw [hsave]
      exact List.getElem?_set_self (by simpa using hlt)
    · intro j hj
      rw [hsave]
      exact List.getElem?_set_ne (Ne.symm hj)
  · intro hnone
    have hfind : vocab.findIdx? (vocabMatches item) = none :=
      List.findIdx?_eq_none_iff.mpr hnone
    constructor
    · rw [saveVocabularyItem, hfind]
    · rw [saveVocabularyItem, hfind]
      simp

/-- Closed witness for the C9 theorem: saving "HELLO" over a stored
"Hello" keeps the length at one and preserves id 42; saving into an empty
store appends one item. -/
theorem vocabulary_upsert_witness :
    ((∃ v ∈ [vocabExisting], vocabMatches vocabInput v = true) ∧
      (saveVocabularyItem [vocabExisting] vocabInput 99 "t2").1.length = 1) ∧
    ((∀ v ∈ ([] : List VocabularyItem), vocabMatches vocabInput v = false) ∧
      (saveVocabularyItem [] vocabInput 99 "t2").1.length = 0 + 1) :=
  ⟨⟨⟨vocabExisting, by decide⟩,
    ((vocabulary_upsert [vocabExisting] vocabInput 99 "t2").1
      ⟨vocabExisting, by decide⟩).1⟩,
   ⟨by simp,
    ((vocabulary_upsert [] vocabInput 99 "t2").2 (by simp)).2⟩⟩

/-- C10 counterexample: with an empty cache and a server echoing a word
of its own choosing, the returned translation's `word` field is the
server's word, not the normalized form of the hovered token — so the
claim's "the word field is the normalized form" fails on the API-success
path. -/
theorem translation_word_counterexample :
    cleanWordOf "Hello!" = "hello"
    ∧ (handleGetTranslation c10Env "Hello!").word = "SERVER-ECHO"
    ∧ (handleGetTranslation c10Env "Hello!").word ≠ cleanWordOf "Hello!" := by
  refine ⟨by decide, rfl, by decide⟩

/-- C10 (amended): Every translation request is normalized before the
cache lookup and before the API call — characters that are neither word
characters nor whitespace are removed, the result trimmed and lowercased
— and the `word` field of the returned translation is the normalized form
on a cache hit and on API failure; on API success the `word` field is
whatever word the server's response body carries. -/
theorem translation_normalization :
    ∀ (env : TranslationEnv) (w : String),
      cleanWordOf w =
        ((jsTrim (w.toList.filter (fun c => isWordChar c || isWs c))).map
          Char.toLower).asString
      ∧ (∀ t, getCachedTranslation env.cache (cleanWordOf w) = some t →
          handleGetTranslation env w =
            { word := cleanWordOf w, translation := t
              language := env.settings.targetLanguage
              pronunciation? := none, partOfSpeech? := none
              definitions? := none })
      ∧ (getCachedTranslation env.cache (cleanWordOf w) = none →
          handleGetTranslation env w =
            translateWord (cleanWordOf w) env.settings.targetLanguage
              (env.server (cleanWordOf w)))
      ∧ (getCachedTranslation env.cache (cleanWordOf w) = none →
          env.server (cleanWordOf w) = none →
          (handleGetTranslation env w).word = cleanWordOf w)
      ∧ (∀ d, getCachedTranslation env.cache (cleanWordOf w) = none →
          env.server (cleanWordOf w) = some d →
          (handleGetTranslation env w).word = d.word) := by
  intro env w
  refine ⟨rfl, ?_, ?_, ?_, ?_⟩
  · intro t ht
    rw [handleGetTranslation]
    simp [ht]
  · intro hnone
    rw [handleGetTranslation]
    simp [hnone]
  · intro hnone hserver
    rw [handleGetTranslation]
    simp [hnone, hserver, translateWord]
  · intro d hnone hserver
    rw [handleGetTranslation]
    simp [hnone, hserver, translateWord]

/-- Closed witness for the amended C10 theorem, instantiated on the
counterexample environment: the cache misses under the normalized form
and the returned word is the server's echoed word. -/
theorem translation_normalization_witness :
    getCachedTranslation c10Env.cache (cleanWordOf "Hello!") = none
    ∧ c10Env.server (cleanWordOf "Hello!") = some c10Data
    ∧ (handleGetTranslation c10Env "Hello!").word = c10Data.word :=
  ⟨rfl, rfl, (translation_normalization c10Env "Hello!").2.2.2.2 c10Data rfl rfl⟩

end YLR
